import Mathlib

/-!
Shallow embedding of `mmdet3d/core/bbox/structures/depth_box3d.py`
(`DepthInstance3DBoxes`): the box table, its derived geometric views
(gravity center, corners, bev, nearest_bev) and its in-place transforms
(rotate, flip, in_range_bev, points_in_boxes), together with theorems
checking the specification's statements about them.

A box table is a list of rows over the reals; a row is
`(x, y, z, x_size, y_size, z_size, yaw, ...)` with possible trailing
columns.  In-place mutation becomes explicit state passing: a mutator
returns the new box table together with an `Except` value that reflects
whether the Python call returned or raised, and what it returned.
Helpers from modules that are not part of the staged source
(`limit_period`, `rotation_3d_in_axis`, `bottom_center`, the frame
conversion and the batched containment primitive) are modelled from the
spec's words and are marked as such in their doc comments.
-/

namespace MMDet3D

noncomputable section

/-! ## Row primitives -/

/-- Cell `i` of a row, `0` past the end (claims carry the length bounds
they need; torch never reads past a row). -/
def getv (l : List ℝ) (i : ℕ) : ℝ :=
  l.getD i 0

/-- Write `v` at index `i` of a row; identity past the end (torch element
assignment on an in-range index). -/
def setv : List ℝ → ℕ → ℝ → List ℝ
  | [], _, _ => []
  | _ :: xs, 0, v => v :: xs
  | x :: xs, n + 1, v => x :: setv xs n v

/-- Map a function of the column index over a row, starting the index
count at `k`; embeds strided slice assignment. -/
def mapIdxFrom (f : ℕ → ℝ → ℝ) : ℕ → List ℝ → List ℝ
  | _, [] => []
  | k, x :: xs => f k x :: mapIdxFrom f (k + 1) xs

@[simp] theorem getv_nil (i : ℕ) : getv [] i = 0 := rfl

@[simp] theorem getv_cons_zero (x : ℝ) (xs : List ℝ) : getv (x :: xs) 0 = x := rfl

@[simp] theorem getv_cons_succ (x : ℝ) (xs : List ℝ) (i : ℕ) :
    getv (x :: xs) (i + 1) = getv xs i := rfl

@[simp] theorem length_setv (l : List ℝ) (k : ℕ) (v : ℝ) :
    (setv l k v).length = l.length := by
  induction l generalizing k with
  | nil => rfl
  | cons x xs ih =>
    cases k with
    | zero => rfl
    | succ n => simpa [setv] using ih n

theorem getv_setv (l : List ℝ) (k : ℕ) (v : ℝ) (j : ℕ) :
    getv (setv l k v) j = if j = k ∧ k < l.length then v else getv l j := by
  induction l generalizing k j with
  | nil => simp [setv]
  | cons x xs ih =>
    cases k with
    | zero =>
      cases j with
      | zero => simp [setv]
      | succ m => simp [setv]
    | succ n =>
      cases j with
      | zero => simp [setv]
      | succ m =>
        simp only [setv, getv_cons_succ, ih n m, List.length_cons]
        exact if_congr (by omega) rfl rfl

theorem getv_setv_self (l : List ℝ) (k : ℕ) (v : ℝ) (h : k < l.length) :
    getv (setv l k v) k = v := by
  simp [getv_setv, h]

theorem getv_setv_ne (l : List ℝ) (k : ℕ) (v : ℝ) (j : ℕ) (h : j ≠ k) :
    getv (setv l k v) j = getv l j := by
  simp [getv_setv, h]

@[simp] theorem length_mapIdxFrom (f : ℕ → ℝ → ℝ) (k : ℕ) (l : List ℝ) :
    (mapIdxFrom f k l).length = l.length := by
  induction l generalizing k with
  | nil => rfl
  | cons x xs ih => simpa [mapIdxFrom] using ih (k + 1)

theorem getv_mapIdxFrom (f : ℕ → ℝ → ℝ) (k : ℕ) (l : List ℝ) (j : ℕ) :
    getv (mapIdxFrom f k l) j =
      if j < l.length then f (k + j) (getv l j) else 0 := by
  induction l generalizing k j with
  | nil => simp [mapIdxFrom]
  | cons x xs ih =>
    cases j with
    | zero => simp [mapIdxFrom]
    | succ m =>
      simp only [mapIdxFrom, getv_cons_succ, ih (k + 1) m, List.length_cons]
      have : k + 1 + m = k + (m + 1) := by omega
      rw [this]
      exact if_congr (by omega) rfl rfl

/-- `getD` through `List.map`, for an in-range index. -/
theorem getD_map_lt {α β : Type*} (f : α → β) (t : List α) (i : ℕ)
    (h : i < t.length) (da : α) (db : β) :
    (t.map f).getD i db = f (t.getD i da) := by
  induction t generalizing i with
  | nil => simp at h
  | cons x xs ih =>
    cases i with
    | zero => simp
    | succ m =>
      simp only [List.map_cons, List.getD_cons_succ]
      exact ih m (by simpa using h)

/-- `getD` through `List.map` when the defaults correspond; holds at every
index. -/
theorem getD_map_of_default {α β : Type*} (f : α → β) (t : List α) (i : ℕ)
    (da : α) (db : β) (hd : f da = db) :
    (t.map f).getD i db = f (t.getD i da) := by
  by_cases h : i < t.length
  · exact getD_map_lt f t i h da db
  · rw [List.getD_eq_default, List.getD_eq_default, hd] <;>
      simpa using le_of_not_lt h

/-! ## Data model -/

/-- The error a failed Python call surfaces: `raise ValueError` or a failed
`assert`. -/
inductive PyErr where
  | valueError
  | assertionError
deriving DecidableEq

/-- The `bev_direction` argument of `flip`; `other` stands for any value
besides the two accepted strings. -/
inductive BevDirection where
  | horizontal
  | vertical
  | other
deriving DecidableEq

/-- The `points` argument of `rotate`/`flip`: a dense array (either of the
two accepted kinds, both carrying an M-row table whose first columns are
x, y, z) or a value of any other kind. -/
inductive PointsArg where
  | tensor (data : List (List ℝ))
  | ndarray (data : List (List ℝ))
  | otherKind

/-- `DepthInstance3DBoxes`: an N x box_dim table of rows
`(x, y, z, x_size, y_size, z_size, yaw, ...)`, the declared width and the
yaw flag. -/
structure DepthInstance3DBoxes where
  tensor : List (List ℝ)
  box_dim : ℕ
  with_yaw : Bool

/-- Row `i` of a box table's cell `j` (0 outside the table). -/
def cell (b : DepthInstance3DBoxes) (i j : ℕ) : ℝ :=
  getv (b.tensor.getD i []) j

/-! ## Geometry ops -/

/-- Modelled from the spec: `bottom_center` lives on the base class, which
is not among the staged files; it is the identity view over columns 0-2. -/
def bottomCenterRow (r : List ℝ) : ℝ × ℝ × ℝ :=
  (getv r 0, getv r 1, getv r 2)

/-- Modelled from the spec: `bottom_center`, the stored reference points. -/
def bottom_center (b : DepthInstance3DBoxes) : List (ℝ × ℝ × ℝ) :=
  b.tensor.map bottomCenterRow

/-- `gravity_center`: x, y copied from `bottom_center`, z raised by half of
column 5. -/
def gravity_center (b : DepthInstance3DBoxes) : List (ℝ × ℝ × ℝ) :=
  b.tensor.map fun r =>
    ((bottomCenterRow r).1, (bottomCenterRow r).2.1,
      (bottomCenterRow r).2.2 + getv r 5 * 0.5)

/-- The source's `rot_mat_T`: the transpose of
`[[cos a, -sin a, 0], [sin a, cos a, 0], [0, 0, 1]]`. -/
def rot_mat_T (a : ℝ) : List (List ℝ) :=
  [[Real.cos a, Real.sin a, 0], [-Real.sin a, Real.cos a, 0], [0, 0, 1]]

/-- Row vector `(x, y, z)` times column `j` of a 3 x 3 matrix. -/
def vdot3 (x y z : ℝ) (m : List (List ℝ)) (j : ℕ) : ℝ :=
  x * getv (m.getD 0 []) j + y * getv (m.getD 1 []) j + z * getv (m.getD 2 []) j

/-- A 3d point right-multiplied by `rot_mat_T a` (`corners @ rot_mat_T`). -/
def pointMatT (a : ℝ) (p : ℝ × ℝ × ℝ) : ℝ × ℝ × ℝ :=
  (vdot3 p.1 p.2.1 p.2.2 (rot_mat_T a) 0,
   vdot3 p.1 p.2.1 p.2.2 (rot_mat_T a) 1,
   vdot3 p.1 p.2.1 p.2.2 (rot_mat_T a) 2)

/-- Modelled from the spec: `rotation_3d_in_axis` (from `.utils`, not among
the staged files) for `axis=2`: rotation about the vertical axis by the
matrix of section 4.2, transposed for right multiplication. -/
def rotation_3d_in_axis_z (a : ℝ) (p : ℝ × ℝ × ℝ) : ℝ × ℝ × ℝ :=
  pointMatT a p

/-- The 8 rows of `np.unravel_index(np.arange(8), [2, 2, 2])` stacked on
axis 1, reindexed by `[0, 1, 3, 2, 4, 5, 7, 6]`. -/
def corners_norm : List (ℝ × ℝ × ℝ) :=
  [(0, 0, 0), (0, 0, 1), (0, 1, 1), (0, 1, 0),
   (1, 0, 0), (1, 0, 1), (1, 1, 1), (1, 1, 0)]

/-- One row's 8 corners: shift `corners_norm` by the relative origin
`(0.5, 0.5, 0)`, scale by the size columns, rotate about the z axis by the
yaw column, translate by the center columns. -/
def cornersOfRow (r : List ℝ) : List (ℝ × ℝ × ℝ) :=
  corners_norm.map fun c =>
    let q := rotation_3d_in_axis_z (getv r 6)
      ((c.1 - 0.5) * getv r 3, (c.2.1 - 0.5) * getv r 4, (c.2.2 - 0) * getv r 5)
    (q.1 + getv r 0, q.2.1 + getv r 1, q.2.2 + getv r 2)

/-- `corners`: asserts the table is non-empty, then expands every row. -/
def corners (b : DepthInstance3DBoxes) :
    Except PyErr (List (List (ℝ × ℝ × ℝ))) :=
  if b.tensor.length = 0 then .error .assertionError
  else .ok (b.tensor.map cornersOfRow)

/-- `bev`: columns `[0, 1, 3, 4, 6]` of every row (XYWHR). -/
def bev (b : DepthInstance3DBoxes) : List (List ℝ) :=
  b.tensor.map fun r => [getv r 0, getv r 1, getv r 3, getv r 4, getv r 6]

/-- Modelled from the spec: `limit_period` (from `.utils`, not among the
staged files): `v - floor(v / p + f) * p`. -/
def limit_period (val offset period : ℝ) : ℝ :=
  val - ⌊val / period + offset⌋ * period

/-- One bev row through `nearest_bev`: normalize the rotation by period pi
with offset 0.5, take its absolute value, swap width and height past pi/4,
return `(xmin, ymin, xmax, ymax)` around the center. -/
def nearestBevRow (rb : List ℝ) : List ℝ :=
  let normed := |limit_period (getv rb 4) 0.5 Real.pi|
  let xywh := if normed > Real.pi / 4
    then [getv rb 0, getv rb 1, getv rb 3, getv rb 2]
    else [getv rb 0, getv rb 1, getv rb 2, getv rb 3]
  [getv xywh 0 - getv xywh 2 / 2, getv xywh 1 - getv xywh 3 / 2,
   getv xywh 0 + getv xywh 2 / 2, getv xywh 1 + getv xywh 3 / 2]

/-- `nearest_bev`: the axis-aligned bev boxes. -/
def nearest_bev (b : DepthInstance3DBoxes) : List (List ℝ) :=
  (bev b).map nearestBevRow

/-! ## Transform ops -/

/-- `r[:3] = r[:3] @ rot_mat_T` on one row: the first three cells are
replaced by the row-vector product with the original values (the slice's
right-hand side is evaluated before the write). -/
def rotFirst3 (a : ℝ) (r : List ℝ) : List ℝ :=
  setv (setv (setv r
      0 (vdot3 (getv r 0) (getv r 1) (getv r 2) (rot_mat_T a) 0))
      1 (vdot3 (getv r 0) (getv r 1) (getv r 2) (rot_mat_T a) 1))
      2 (vdot3 (getv r 0) (getv r 1) (getv r 2) (rot_mat_T a) 2)

/-- Largest image of a non-empty corner list under `f` (0 on `[]`);
`corners_rot[..., k].max(dim=1)`. -/
def listMax (f : ℝ × ℝ × ℝ → ℝ) : List (ℝ × ℝ × ℝ) → ℝ
  | [] => 0
  | [p] => f p
  | p :: q :: rest => max (f p) (listMax f (q :: rest))

/-- Smallest image of a non-empty corner list under `f` (0 on `[]`). -/
def listMin (f : ℝ × ℝ × ℝ → ℝ) : List (ℝ × ℝ × ℝ) → ℝ
  | [] => 0
  | [p] => f p
  | p :: q :: rest => min (f p) (listMin f (q :: rest))

/-- The tail of `rotate` once the box table is updated: rotate the optional
points by the same matrix, or raise `ValueError` on an unsupported kind
(the box mutation has already happened at that point). -/
def rotateFinish (b1 : DepthInstance3DBoxes) (a : ℝ)
    (points : Option PointsArg) :
    DepthInstance3DBoxes × Except PyErr (Option (PointsArg × List (List ℝ))) :=
  match points with
  | none => (b1, .ok none)
  | some (.tensor p) => (b1, .ok (some (.tensor (p.map (rotFirst3 a)), rot_mat_T a)))
  | some (.ndarray p) => (b1, .ok (some (.ndarray (p.map (rotFirst3 a)), rot_mat_T a)))
  | some .otherKind => (b1, .error .valueError)

/-- `rotate(angle, points)`: rotate every row's center columns; then either
shift the yaw column by `-angle` (`with_yaw`) or recompute the horizontal
sizes from the extent of the rotated corners (which asserts the table is
non-empty); finally handle the optional points. -/
def rotate (b : DepthInstance3DBoxes) (angle : ℝ)
    (points : Option PointsArg) :
    DepthInstance3DBoxes × Except PyErr (Option (PointsArg × List (List ℝ))) :=
  let t1 := b.tensor.map (rotFirst3 angle)
  if b.with_yaw then
    rotateFinish
      { b with tensor := t1.map fun r => setv r 6 (getv r 6 - angle) }
      angle points
  else
    match t1 with
    | [] => ({ b with tensor := t1 }, .error .assertionError)
    | r0 :: rest =>
      let t2 := (r0 :: rest).map fun r =>
        let cr := (cornersOfRow r).map (pointMatT angle)
        setv (setv r
          3 (listMax (fun p => p.1) cr - listMin (fun p => p.1) cr))
          4 (listMax (fun p => p.2.1) cr - listMin (fun p => p.2.1) cr)
      rotateFinish { b with tensor := t2 } angle points

/-- `tensor[:, s::7] = -tensor[:, s::7]` on one row (`s < 7`): negate every
column whose index is `s` modulo 7. -/
def strideNeg7 (s : ℕ) (r : List ℝ) : List ℝ :=
  mapIdxFrom (fun i v => if i % 7 = s then -v else v) 0 r

/-- One row through `flip`: negate the strided coordinate columns, then
update the yaw column when `with_yaw` holds. -/
def flipRow (w : Bool) (dir : BevDirection) (r : List ℝ) : List ℝ :=
  match dir with
  | .horizontal =>
    let r1 := strideNeg7 0 r
    if w then setv r1 6 (-(getv r1 6) + Real.pi) else r1
  | .vertical =>
    let r1 := strideNeg7 1 r
    if w then setv r1 6 (-(getv r1 6)) else r1
  | .other => r

/-- `flip`'s effect on a points table: negate column 0 (horizontal) or
column 1 (vertical). -/
def flipPoints (dir : BevDirection) (p : List (List ℝ)) : List (List ℝ) :=
  match dir with
  | .horizontal => p.map fun q => setv q 0 (-(getv q 0))
  | .vertical => p.map fun q => setv q 1 (-(getv q 1))
  | .other => p

/-- `flip(bev_direction, points)`: assert the direction is one of the two
accepted values (before any write), flip every row, then flip the optional
points or fail their `isinstance` assert (after the box write). -/
def flip (b : DepthInstance3DBoxes) (bev_direction : BevDirection)
    (points : Option PointsArg) :
    DepthInstance3DBoxes × Except PyErr (Option PointsArg) :=
  match bev_direction with
  | .other => (b, .error .assertionError)
  | dir =>
    let b1 : DepthInstance3DBoxes :=
      { b with tensor := b.tensor.map (flipRow b.with_yaw dir) }
    match points with
    | none => (b1, .ok none)
    | some (.tensor p) => (b1, .ok (some (.tensor (flipPoints dir p))))
    | some (.ndarray p) => (b1, .ok (some (.ndarray (flipPoints dir p))))
    | some .otherKind => (b1, .error .assertionError)

/-- `in_range_bev(box_range)`: per row, the strict center-containment test
of columns 0 and 1 against `(x_min, y_min, x_max, y_max)`. -/
def in_range_bev (b : DepthInstance3DBoxes) (box_range : ℝ × ℝ × ℝ × ℝ) :
    List Prop :=
  b.tensor.map fun r =>
    getv r 0 > box_range.1 ∧ getv r 1 > box_range.2.1 ∧
    getv r 0 < box_range.2.2.1 ∧ getv r 1 < box_range.2.2.2

/-! ## Containment query -/

/-- The `points` argument of `points_in_boxes`: shape M x 3 (`mat`) or
B x M x 3 (`batched`). -/
inductive PointsInput where
  | mat (p : List (List ℝ))
  | batched (p : List (List (List ℝ)))

/-- `points_lidar = points_lidar[..., [1, 0, 2]]` on one point. -/
def permutePoint (q : List ℝ) : List ℝ :=
  [getv q 1, getv q 0, getv q 2]

/-- One point into the canonical (LiDAR) query frame: the axis permutation
followed by `points_lidar[..., 1] *= -1`. -/
def toLidarPoint (q : List ℝ) : List ℝ :=
  let p := permutePoint q
  setv p 1 (-(getv p 1))

/-- `points_in_boxes(points)`: map the points into the canonical frame,
give them a leading batch dimension of 1 (asserting an existing batch
dimension equals 1), convert the boxes with the frame-conversion rule,
delegate to the batched primitive, and squeeze the batch dimension from
the result.  The frame conversion (`convert_to`, whose registry lives in a
module not among the staged files) and the external containment primitive
(`points_in_boxes_batch`) are abstract parameters, per the spec's
collaborator contracts. -/
def points_in_boxes
    (convert_to_lidar : List (List ℝ) → List (List ℝ))
    (pib_batch : List (List (List ℝ)) → List (List (List ℝ)) → List (List ℤ))
    (b : DepthInstance3DBoxes) (points : PointsInput) :
    Except PyErr (List ℤ) :=
  let boxes_lidar := convert_to_lidar b.tensor
  match points with
  | .mat p =>
    .ok ((pib_batch [p.map toLidarPoint] [boxes_lidar]).getD 0 [])
  | .batched ps =>
    if ps.length = 1 then
      .ok ((pib_batch (ps.map (List.map toLidarPoint)) [boxes_lidar]).getD 0 [])
    else .error .assertionError

/-! ## Row-level facts -/

theorem getv_eq_zero_of_le (r : List ℝ) (j : ℕ) (h : r.length ≤ j) :
    getv r j = 0 :=
  List.getD_eq_default r 0 h

theorem getv_strideNeg7 (s : ℕ) (r : List ℝ) (j : ℕ) :
    getv (strideNeg7 s r) j = if j % 7 = s then -(getv r j) else getv r j := by
  rw [strideNeg7, getv_mapIdxFrom]
  by_cases h : j < r.length
  · simp [h]
  · have h0 : getv r j = 0 := getv_eq_zero_of_le r j (le_of_not_lt h)
    simp [h, h0]

@[simp] theorem length_strideNeg7 (s : ℕ) (r : List ℝ) :
    (strideNeg7 s r).length = r.length := by
  simp [strideNeg7]

@[simp] theorem length_flipRow (w : Bool) (dir : BevDirection) (r : List ℝ) :
    (flipRow w dir r).length = r.length := by
  cases dir <;> cases w <;> simp [flipRow]

theorem getv_flipRow_h_ne6 (w : Bool) (r : List ℝ) (j : ℕ) (hj : j ≠ 6) :
    getv (flipRow w BevDirection.horizontal r) j =
      if j % 7 = 0 then -(getv r j) else getv r j := by
  cases w <;>
    simp [flipRow, getv_setv_ne _ _ _ _ hj, getv_strideNeg7]

theorem getv_flipRow_v_ne6 (w : Bool) (r : List ℝ) (j : ℕ) (hj : j ≠ 6) :
    getv (flipRow w BevDirection.vertical r) j =
      if j % 7 = 1 then -(getv r j) else getv r j := by
  cases w <;>
    simp [flipRow, getv_setv_ne _ _ _ _ hj, getv_strideNeg7]

theorem getv_flipRow_h_six (r : List ℝ) (h7 : 7 ≤ r.length) :
    getv (flipRow true BevDirection.horizontal r) 6 =
      -(getv r 6) + Real.pi := by
  have h6 : 6 < (strideNeg7 0 r).length := by simp; omega
  have : getv (strideNeg7 0 r) 6 = getv r 6 := by
    rw [getv_strideNeg7]; norm_num
  simp [flipRow, getv_setv_self _ _ _ h6, this]

theorem getv_flipRow_v_six (r : List ℝ) (h7 : 7 ≤ r.length) :
    getv (flipRow true BevDirection.vertical r) 6 = -(getv r 6) := by
  have h6 : 6 < (strideNeg7 1 r).length := by simp; omega
  have : getv (strideNeg7 1 r) 6 = getv r 6 := by
    rw [getv_strideNeg7]; norm_num
  simp [flipRow, getv_setv_self _ _ _ h6, this]

theorem getv_flipRow_flipRow (w : Bool) (dir : BevDirection)
    (hdir : dir ≠ BevDirection.other) (r : List ℝ) (j : ℕ) :
    getv (flipRow w dir (flipRow w dir r)) j = getv r j := by
  have stride2 : ∀ (s : ℕ) (l : List ℝ) (i : ℕ),
      getv (strideNeg7 s (strideNeg7 s l)) i = getv l i := by
    intro s l i
    rw [getv_strideNeg7, getv_strideNeg7]
    by_cases h : i % 7 = s <;> simp [h]
  cases dir with
  | other => exact absurd rfl hdir
  | horizontal =>
    cases w with
    | false => simpa [flipRow] using stride2 0 r j
    | true =>
      by_cases hj : j = 6
      · subst hj
        by_cases hl : 6 < r.length
        · have hl1 : 6 < (strideNeg7 0 r).length := by simpa using hl
          have hl2 : (6 : ℕ) <
              (strideNeg7 0 (setv (strideNeg7 0 r) 6
                (-(getv (strideNeg7 0 r) 6) + Real.pi))).length := by
            simpa using hl
          have s6 : ∀ l : List ℝ, getv (strideNeg7 0 l) 6 = getv l 6 := by
            intro l; rw [getv_strideNeg7]; norm_num
          simp only [flipRow, if_true, eq_self_iff_true]
          rw [getv_setv_self _ _ _ hl2, s6, getv_setv_self _ _ _ hl1, s6]
          ring
        · have hl' : r.length ≤ 6 := le_of_not_lt hl
          have s6 : ∀ l : List ℝ, getv (strideNeg7 0 l) 6 = getv l 6 := by
            intro l; rw [getv_strideNeg7]; norm_num
          have e1 : ∀ l : List ℝ, l.length ≤ 6 → getv (setv l 6 (-(getv l 6) + Real.pi)) 6 = getv l 6 := by
            intro l h
            rw [getv_setv]
            simp [Nat.not_lt_of_le h]
          simp only [flipRow, if_true, eq_self_iff_true]
          rw [e1 _ (by simp [hl']), s6, e1 _ (by simpa using hl'), s6]
      · simp only [flipRow, if_true, eq_self_iff_true]
        rw [getv_setv_ne _ _ _ _ hj, getv_strideNeg7,
          getv_setv_ne _ _ _ _ hj, getv_strideNeg7]
        by_cases h : j % 7 = 0 <;> simp [h]
  | vertical =>
    cases w with
    | false => simpa [flipRow] using stride2 1 r j
    | true =>
      by_cases hj : j = 6
      · subst hj
        by_cases hl : 6 < r.length
        · have hl1 : 6 < (strideNeg7 1 r).length := by simpa using hl
          have hl2 : (6 : ℕ) <
              (strideNeg7 1 (setv (strideNeg7 1 r) 6
                (-(getv (strideNeg7 1 r) 6)))).length := by
            simpa using hl
          have s6 : ∀ l : List ℝ, getv (strideNeg7 1 l) 6 = getv l 6 := by
            intro l; rw [getv_strideNeg7]; norm_num
          simp only [flipRow, if_true, eq_self_iff_true]
          rw [getv_setv_self _ _ _ hl2, s6, getv_setv_self _ _ _ hl1, s6]
          ring
        · have hl' : r.length ≤ 6 := le_of_not_lt hl
          have s6 : ∀ l : List ℝ, getv (strideNeg7 1 l) 6 = getv l 6 := by
            intro l; rw [getv_strideNeg7]; norm_num
          have e1 : ∀ l : List ℝ, l.length ≤ 6 → getv (setv l 6 (-(getv l 6))) 6 = getv l 6 := by
            intro l h
            rw [getv_setv]
            simp [Nat.not_lt_of_le h]
          simp only [flipRow, if_true, eq_self_iff_true]
          rw [e1 _ (by simp [hl']), s6, e1 _ (by simpa using hl'), s6]
      · simp only [flipRow, if_true, eq_self_iff_true]
        rw [getv_setv_ne _ _ _ _ hj, getv_strideNeg7,
          getv_setv_ne _ _ _ _ hj, getv_strideNeg7]
        by_cases h : j % 7 = 1 <;> simp [h]

theorem flipRow_nil (w : Bool) (dir : BevDirection) : flipRow w dir [] = [] := by
  cases dir <;> cases w <;> rfl

@[simp] theorem length_rotFirst3 (a : ℝ) (r : List ℝ) :
    (rotFirst3 a r).length = r.length := by
  simp [rotFirst3]

theorem rotFirst3_nil (a : ℝ) : rotFirst3 a [] = [] := rfl

theorem vdot3_rot_mat_T_zero (x y z a : ℝ) :
    vdot3 x y z (rot_mat_T a) 0 =
      x * Real.cos a + y * -(Real.sin a) + z * 0 := rfl

theorem vdot3_rot_mat_T_one (x y z a : ℝ) :
    vdot3 x y z (rot_mat_T a) 1 =
      x * Real.sin a + y * Real.cos a + z * 0 := rfl

theorem vdot3_rot_mat_T_two (x y z a : ℝ) :
    vdot3 x y z (rot_mat_T a) 2 = x * 0 + y * 0 + z * 1 := rfl

theorem getv_rotFirst3_zero (a : ℝ) (r : List ℝ) (h : 3 ≤ r.length) :
    getv (rotFirst3 a r) 0 =
      getv r 0 * Real.cos a + getv r 1 * -(Real.sin a) + getv r 2 * 0 := by
  rw [rotFirst3, getv_setv_ne _ _ _ _ (by omega), getv_setv_ne _ _ _ _ (by omega),
    getv_setv_self _ _ _ (by omega), vdot3_rot_mat_T_zero]

theorem getv_rotFirst3_one (a : ℝ) (r : List ℝ) (h : 3 ≤ r.length) :
    getv (rotFirst3 a r) 1 =
      getv r 0 * Real.sin a + getv r 1 * Real.cos a + getv r 2 * 0 := by
  rw [rotFirst3, getv_setv_ne _ _ _ _ (by omega),
    getv_setv_self _ _ _ (by simp; omega), vdot3_rot_mat_T_one]

theorem getv_rotFirst3_two (a : ℝ) (r : List ℝ) (h : 3 ≤ r.length) :
    getv (rotFirst3 a r) 2 =
      getv r 0 * 0 + getv r 1 * 0 + getv r 2 * 1 := by
  rw [rotFirst3, getv_setv_self _ _ _ (by simp; omega), vdot3_rot_mat_T_two]

theorem getv_rotFirst3_ge3 (a : ℝ) (r : List ℝ) (j : ℕ) (hj : 3 ≤ j) :
    getv (rotFirst3 a r) j = getv r j := by
  rw [rotFirst3, getv_setv_ne _ _ _ _ (by omega), getv_setv_ne _ _ _ _ (by omega),
    getv_setv_ne _ _ _ _ (by omega)]

/-! ## Table-level glue -/

theorem rotateFinish_fst (b1 : DepthInstance3DBoxes) (a : ℝ)
    (pts : Option PointsArg) : (rotateFinish b1 a pts).fst = b1 := by
  cases pts with
  | none => rfl
  | some p => cases p <;> rfl

theorem rotate_fst_with_yaw (b : DepthInstance3DBoxes) (a : ℝ)
    (pts : Option PointsArg) :
    (rotate b a pts).fst.with_yaw = b.with_yaw := by
  rw [rotate]
  by_cases hw : b.with_yaw
  · rw [if_pos hw, rotateFinish_fst]
  · rw [if_neg hw]
    cases h : b.tensor.map (rotFirst3 a) with
    | nil => rfl
    | cons r0 rest => rw [rotateFinish_fst]

theorem rotate_fst_eq_of_points (b : DepthInstance3DBoxes) (a : ℝ)
    (pts : Option PointsArg) :
    (rotate b a pts).fst = (rotate b a none).fst := by
  rw [rotate, rotate]
  by_cases hw : b.with_yaw = true
  · rw [if_pos hw, if_pos hw, rotateFinish_fst, rotateFinish_fst]
  · rw [if_neg hw, if_neg hw]
    cases List.map (rotFirst3 a) b.tensor with
    | nil => rfl
    | cons r0 rest => rw [rotateFinish_fst, rotateFinish_fst]

theorem rotate_fst_tensor_yaw (b : DepthInstance3DBoxes) (a : ℝ)
    (pts : Option PointsArg) (hw : b.with_yaw = true) :
    (rotate b a pts).fst.tensor =
      b.tensor.map fun r =>
        setv (rotFirst3 a r) 6 (getv (rotFirst3 a r) 6 - a) := by
  rw [rotate, if_pos (by simp [hw]), rotateFinish_fst]
  simp [List.map_map, Function.comp]

theorem cell_rotate_yaw (b : DepthInstance3DBoxes) (a : ℝ)
    (pts : Option PointsArg) (hw : b.with_yaw = true) (i j : ℕ) :
    cell (rotate b a pts).fst i j =
      getv (setv (rotFirst3 a (b.tensor.getD i []))
        6 (getv (rotFirst3 a (b.tensor.getD i [])) 6 - a)) j := by
  rw [cell, rotate_fst_tensor_yaw b a pts hw,
    getD_map_of_default _ _ _ [] [] (by rw [rotFirst3_nil]; rfl)]

theorem flip_fst_tensor (b : DepthInstance3DBoxes) (dir : BevDirection)
    (hdir : dir ≠ BevDirection.other) (pts : Option PointsArg) :
    (flip b dir pts).fst.tensor = b.tensor.map (flipRow b.with_yaw dir) := by
  cases dir with
  | other => exact absurd rfl hdir
  | horizontal =>
    cases pts with
    | none => rfl
    | some p => cases p <;> rfl
  | vertical =>
    cases pts with
    | none => rfl
    | some p => cases p <;> rfl

theorem cell_flip (b : DepthInstance3DBoxes) (dir : BevDirection)
    (hdir : dir ≠ BevDirection.other) (pts : Option PointsArg) (i j : ℕ) :
    cell (flip b dir pts).fst i j =
      getv (flipRow b.with_yaw dir (b.tensor.getD i [])) j := by
  rw [cell, flip_fst_tensor b dir hdir pts,
    getD_map_of_default _ _ _ [] [] (flipRow_nil _ _)]

/-! ## Concrete instances used by scenarios, witnesses and counterexamples -/

/-- A 7-wide one-row box set: center (1, 2, 3), sizes (4, 5, 6), yaw 0. -/
def boxA : DepthInstance3DBoxes := ⟨[[1, 2, 3, 4, 5, 6, 0]], 7, true⟩

/-- An 8-wide one-row box set whose trailing attribute column holds 9. -/
def boxDim8 : DepthInstance3DBoxes := ⟨[[1, 2, 3, 4, 5, 6, 0, 9]], 8, true⟩

/-- The cube of scenario 1: center (0, 0, 0), sizes (2, 2, 2), yaw 0. -/
def boxCube : DepthInstance3DBoxes := ⟨[[0, 0, 0, 2, 2, 2, 0]], 7, true⟩

/-- The box of scenario 2 centered at (0.5, 0.5, 0). -/
def boxIn : DepthInstance3DBoxes := ⟨[[0.5, 0.5, 0, 1, 1, 1, 0]], 7, true⟩

/-- The box of scenario 2 centered at (2, 0, 0). -/
def boxOut : DepthInstance3DBoxes := ⟨[[2, 0, 0, 1, 1, 1, 0]], 7, true⟩

/-! ## Claims about flip -/

/-- C5: flipping twice along the same direction is the identity on every
box's center coordinates (columns 0-2) and yaw (column 6). -/
theorem C5_flip_flip_identity (b : DepthInstance3DBoxes) (dir : BevDirection)
    (hdir : dir ≠ BevDirection.other) (i : ℕ) :
    cell (flip (flip b dir none).fst dir none).fst i 0 = cell b i 0 ∧
    cell (flip (flip b dir none).fst dir none).fst i 1 = cell b i 1 ∧
    cell (flip (flip b dir none).fst dir none).fst i 2 = cell b i 2 ∧
    cell (flip (flip b dir none).fst dir none).fst i 6 = cell b i 6 := by
  have hwy : (flip b dir none).fst.with_yaw = b.with_yaw := by
    cases dir <;> rfl
  have key : ∀ j, cell (flip (flip b dir none).fst dir none).fst i j =
      getv (b.tensor.getD i []) j := by
    intro j
    rw [cell_flip _ dir hdir none i j, hwy, flip_fst_tensor b dir hdir none,
      getD_map_of_default _ _ _ [] [] (flipRow_nil _ _),
      getv_flipRow_flipRow b.with_yaw dir hdir]
  exact ⟨key 0, key 1, key 2, key 6⟩

/-- C5 witness: the double horizontal flip of a concrete box restores its
center and yaw cells. -/
theorem C5_witness :
    cell (flip (flip boxA BevDirection.horizontal none).fst
        BevDirection.horizontal none).fst 0 0 = cell boxA 0 0 ∧
    cell (flip (flip boxA BevDirection.horizontal none).fst
        BevDirection.horizontal none).fst 0 1 = cell boxA 0 1 ∧
    cell (flip (flip boxA BevDirection.horizontal none).fst
        BevDirection.horizontal none).fst 0 2 = cell boxA 0 2 ∧
    cell (flip (flip boxA BevDirection.horizontal none).fst
        BevDirection.horizontal none).fst 0 6 = cell boxA 0 6 :=
  C5_flip_flip_identity boxA BevDirection.horizontal (by decide) 0

/-- C8: with `with_yaw`, a horizontal flip negates column 0 and maps yaw to
pi minus yaw, a vertical flip negates column 1 and negates yaw, any other
direction is rejected with no mutation, and the concrete yaw-0 box gets yaw
pi and a negated x center. -/
theorem C8_flip_semantics (b : DepthInstance3DBoxes) (i : ℕ)
    (hw : b.with_yaw = true) (h7 : 7 ≤ (b.tensor.getD i []).length) :
    cell (flip b BevDirection.horizontal none).fst i 0 = -(cell b i 0) ∧
    cell (flip b BevDirection.horizontal none).fst i 6 =
      Real.pi - cell b i 6 ∧
    cell (flip b BevDirection.vertical none).fst i 1 = -(cell b i 1) ∧
    cell (flip b BevDirection.vertical none).fst i 6 = -(cell b i 6) ∧
    (∀ pts, flip b BevDirection.other pts =
      (b, Except.error PyErr.assertionError)) ∧
    cell (flip boxA BevDirection.horizontal none).fst 0 6 = Real.pi ∧
    cell (flip boxA BevDirection.horizontal none).fst 0 0 = -1 := by
  refine ⟨?_, ?_, ?_, ?_, fun pts => rfl, ?_, ?_⟩
  · rw [cell_flip b _ (by decide) none i 0, hw,
      getv_flipRow_h_ne6 true _ 0 (by decide)]
    norm_num [cell]
  · rw [cell_flip b _ (by decide) none i 6, hw, getv_flipRow_h_six _ h7]
    show -(cell b i 6) + Real.pi = Real.pi - cell b i 6
    ring
  · rw [cell_flip b _ (by decide) none i 1, hw,
      getv_flipRow_v_ne6 true _ 1 (by decide)]
    norm_num [cell]
  · rw [cell_flip b _ (by decide) none i 6, hw, getv_flipRow_v_six _ h7]
    rfl
  · rw [cell_flip boxA _ (by decide) none 0 6, show boxA.with_yaw = true from rfl,
      getv_flipRow_h_six _ (by decide)]
    rw [show getv (boxA.tensor.getD 0 []) 6 = 0 from rfl]
    ring
  · rw [cell_flip boxA _ (by decide) none 0 0,
      show boxA.with_yaw = true from rfl,
      getv_flipRow_h_ne6 true _ 0 (by decide),
      if_pos (show 0 % 7 = 0 from rfl),
      show getv (boxA.tensor.getD 0 []) 0 = 1 from rfl]

/-- C8 witness: the flip semantics at a concrete 7-wide yaw-0 box. -/
theorem C8_witness :
    cell (flip boxA BevDirection.horizontal none).fst 0 0 = -(cell boxA 0 0) ∧
    cell (flip boxA BevDirection.horizontal none).fst 0 6 =
      Real.pi - cell boxA 0 6 ∧
    cell (flip boxA BevDirection.vertical none).fst 0 1 = -(cell boxA 0 1) ∧
    cell (flip boxA BevDirection.vertical none).fst 0 6 = -(cell boxA 0 6) ∧
    (∀ pts, flip boxA BevDirection.other pts =
      (boxA, Except.error PyErr.assertionError)) ∧
    cell (flip boxA BevDirection.horizontal none).fst 0 6 = Real.pi ∧
    cell (flip boxA BevDirection.horizontal none).fst 0 0 = -1 :=
  C8_flip_semantics boxA 0 rfl (by decide)

/-- C1 counterexample: on an 8-wide box set a horizontal flip negates the
trailing attribute column 7 (the stride-7 slice `0::7` reaches it), so the
attribute is not passed through unmodified. -/
theorem C1_flip_changes_attribute :
    cell boxDim8 0 7 = 9 ∧
    cell (flip boxDim8 BevDirection.horizontal none).fst 0 7 = -9 ∧
    ((-9 : ℝ) ≠ 9) := by
  refine ⟨rfl, ?_, by norm_num⟩
  rw [cell_flip boxDim8 _ (by decide) none 0 7,
    show boxDim8.with_yaw = true from rfl,
    getv_flipRow_h_ne6 true _ 7 (by decide),
    if_pos (show 7 % 7 = 0 from rfl),
    show getv (boxDim8.tensor.getD 0 []) 7 = 9 from rfl]

/-- C1 (amended): a flip negates exactly the trailing columns the stride-7
slice reaches: a horizontal flip negates every trailing column whose index
is 0 modulo 7 and leaves the other trailing columns unchanged; a vertical
flip does the same for indices 1 modulo 7. -/
theorem C1_flip_trailing_stride (b : DepthInstance3DBoxes) (i j : ℕ)
    (h7 : 7 ≤ j) :
    cell (flip b BevDirection.horizontal none).fst i j =
      (if j % 7 = 0 then -(cell b i j) else cell b i j) ∧
    cell (flip b BevDirection.vertical none).fst i j =
      (if j % 7 = 1 then -(cell b i j) else cell b i j) := by
  constructor
  · rw [cell_flip b _ (by decide) none i j,
      getv_flipRow_h_ne6 b.with_yaw _ j (by omega)]
    rfl
  · rw [cell_flip b _ (by decide) none i j,
      getv_flipRow_v_ne6 b.with_yaw _ j (by omega)]
    rfl

/-- C1 witness: the stride behavior at the concrete 8-wide box, trailing
column 7. -/
theorem C1_witness :
    cell (flip boxDim8 BevDirection.horizontal none).fst 0 7 =
      (if 7 % 7 = 0 then -(cell boxDim8 0 7) else cell boxDim8 0 7) ∧
    cell (flip boxDim8 BevDirection.vertical none).fst 0 7 =
      (if 7 % 7 = 1 then -(cell boxDim8 0 7) else cell boxDim8 0 7) :=
  C1_flip_trailing_stride boxDim8 0 7 (by decide)

/-- C2 counterexample: `flip` with a points argument of unsupported kind
raises, but the box table has already been flipped when it raises: column 0
of the concrete box went from 1 to -1 during the failed call. -/
theorem C2_partial_mutation_on_invalid_points :
    (flip boxA BevDirection.horizontal (some PointsArg.otherKind)).snd =
      Except.error PyErr.assertionError ∧
    cell (flip boxA BevDirection.horizontal
      (some PointsArg.otherKind)).fst 0 0 = -1 ∧
    cell boxA 0 0 = 1 ∧ ((-1 : ℝ) ≠ 1) := by
  refine ⟨rfl, ?_, rfl, by norm_num⟩
  rw [cell_flip boxA _ (by decide) (some PointsArg.otherKind) 0 0,
    show boxA.with_yaw = true from rfl,
    getv_flipRow_h_ne6 true _ 0 (by decide),
    if_pos (show 0 % 7 = 0 from rfl),
    show getv (boxA.tensor.getD 0 []) 0 = 1 from rfl]

/-- C2 (amended): a points argument that is neither of the two accepted
array kinds makes `rotate`/`flip` raise, but only after the box table was
mutated: the table after the failed call equals the table after the same
call without points; only an invalid flip direction is rejected before any
write. -/
theorem C2_invalid_points_error_after_mutation (b : DepthInstance3DBoxes)
    (a : ℝ) :
    (∃ e, (rotate b a (some PointsArg.otherKind)).snd = Except.error e) ∧
    (rotate b a (some PointsArg.otherKind)).fst = (rotate b a none).fst ∧
    (flip b BevDirection.horizontal (some PointsArg.otherKind)).snd =
      Except.error PyErr.assertionError ∧
    (flip b BevDirection.horizontal (some PointsArg.otherKind)).fst =
      (flip b BevDirection.horizontal none).fst ∧
    (flip b BevDirection.vertical (some PointsArg.otherKind)).snd =
      Except.error PyErr.assertionError ∧
    (flip b BevDirection.vertical (some PointsArg.otherKind)).fst =
      (flip b BevDirection.vertical none).fst ∧
    (∀ pts, flip b BevDirection.other pts =
      (b, Except.error PyErr.assertionError)) := by
  refine ⟨?_, rotate_fst_eq_of_points b a (some PointsArg.otherKind),
    rfl, rfl, rfl, rfl, fun pts => rfl⟩
  rw [rotate]
  by_cases hw : b.with_yaw = true
  · rw [if_pos hw]
    exact ⟨PyErr.valueError, rfl⟩
  · rw [if_neg hw]
    cases List.map (rotFirst3 a) b.tensor with
    | nil => exact ⟨PyErr.assertionError, rfl⟩
    | cons r0 rest => exact ⟨PyErr.valueError, rfl⟩

/-! ## Claims about rotate -/

/-- C10: with `with_yaw`, `rotate` only changes columns 0, 1 and 6 of a
row: the z coordinate (column 2), the three size columns and every
trailing attribute column keep their values. -/
theorem C10_rotate_touches_only_xy_yaw (b : DepthInstance3DBoxes) (a : ℝ)
    (i j : ℕ) (hw : b.with_yaw = true)
    (h7 : 7 ≤ (b.tensor.getD i []).length)
    (h0 : j ≠ 0) (h1 : j ≠ 1) (h6 : j ≠ 6) :
    cell (rotate b a none).fst i j = cell b i j := by
  rw [cell_rotate_yaw b a none hw i j, getv_setv_ne _ _ _ _ h6]
  by_cases h2 : j = 2
  · subst h2
    rw [getv_rotFirst3_two a _ (by omega)]
    show _ = getv (b.tensor.getD i []) 2
    ring
  · rw [getv_rotFirst3_ge3 a _ j (by omega)]
    rfl

/-- C10 witness: the z column of a concrete box is unchanged by a rotation
by 1 radian. -/
theorem C10_witness :
    cell (rotate boxA 1 none).fst 0 2 = cell boxA 0 2 :=
  C10_rotate_touches_only_xy_yaw boxA 1 0 2 rfl (by decide)
    (by decide) (by decide) (by decide)

/-- C4: with `with_yaw`, rotating by `a` and then by `-a` restores every
row's center columns 0-2 and yaw column 6 exactly (real arithmetic). -/
theorem C4_rotate_then_rotate_neg (b : DepthInstance3DBoxes) (a : ℝ) (i : ℕ)
    (hw : b.with_yaw = true) (h7 : 7 ≤ (b.tensor.getD i []).length) :
    cell (rotate (rotate b a none).fst (-a) none).fst i 0 = cell b i 0 ∧
    cell (rotate (rotate b a none).fst (-a) none).fst i 1 = cell b i 1 ∧
    cell (rotate (rotate b a none).fst (-a) none).fst i 2 = cell b i 2 ∧
    cell (rotate (rotate b a none).fst (-a) none).fst i 6 = cell b i 6 := by
  have hw1 : (rotate b a none).fst.with_yaw = true := by
    rw [rotate_fst_with_yaw, hw]
  have hr1 : (rotate b a none).fst.tensor.getD i [] =
      setv (rotFirst3 a (b.tensor.getD i []))
        6 (getv (rotFirst3 a (b.tensor.getD i [])) 6 - a) := by
    rw [rotate_fst_tensor_yaw b a none hw,
      getD_map_of_default _ _ _ [] [] (by rw [rotFirst3_nil]; rfl)]
  set r0 : List ℝ := b.tensor.getD i [] with hr0
  set r1 : List ℝ := setv (rotFirst3 a r0) 6 (getv (rotFirst3 a r0) 6 - a)
    with hr1d
  have hl1 : r1.length = r0.length := by rw [hr1d]; simp
  have h3 : 3 ≤ r0.length := by omega
  have h31 : 3 ≤ r1.length := by omega
  have c0 : getv r1 0 =
      getv r0 0 * Real.cos a + getv r0 1 * -(Real.sin a) + getv r0 2 * 0 := by
    rw [hr1d, getv_setv_ne _ _ _ _ (by omega), getv_rotFirst3_zero a r0 h3]
  have c1 : getv r1 1 =
      getv r0 0 * Real.sin a + getv r0 1 * Real.cos a + getv r0 2 * 0 := by
    rw [hr1d, getv_setv_ne _ _ _ _ (by omega), getv_rotFirst3_one a r0 h3]
  have c2 : getv r1 2 = getv r0 0 * 0 + getv r0 1 * 0 + getv r0 2 * 1 := by
    rw [hr1d, getv_setv_ne _ _ _ _ (by omega), getv_rotFirst3_two a r0 h3]
  have c6 : getv r1 6 = getv r0 6 - a := by
    rw [hr1d, getv_setv_self _ _ _ (by simp; omega),
      getv_rotFirst3_ge3 a r0 6 (by omega)]
  have outer : ∀ j, cell (rotate (rotate b a none).fst (-a) none).fst i j =
      getv (setv (rotFirst3 (-a) r1)
        6 (getv (rotFirst3 (-a) r1) 6 - -a)) j := by
    intro j
    rw [cell_rotate_yaw _ (-a) none hw1 i j, hr1]
  have cb : ∀ j, cell b i j = getv r0 j := fun j => rfl
  refine ⟨?_, ?_, ?_, ?_⟩
  · rw [outer 0, getv_setv_ne _ _ _ _ (by omega),
      getv_rotFirst3_zero (-a) r1 h31, Real.cos_neg, Real.sin_neg,
      c0, c1, c2, cb 0]
    linear_combination (getv r0 0) * Real.sin_sq_add_cos_sq a
  · rw [outer 1, getv_setv_ne _ _ _ _ (by omega),
      getv_rotFirst3_one (-a) r1 h31, Real.cos_neg, Real.sin_neg,
      c0, c1, c2, cb 1]
    linear_combination (getv r0 1) * Real.sin_sq_add_cos_sq a
  · rw [outer 2, getv_setv_ne _ _ _ _ (by omega),
      getv_rotFirst3_two (-a) r1 h31, c0, c1, c2, cb 2]
    ring
  · rw [outer 6, getv_setv_self _ _ _ (by simp; omega),
      getv_rotFirst3_ge3 (-a) r1 6 (by omega), c6, cb 6]
    ring

/-! ## Claim about points_in_boxes -/

theorem toLidarPoint_eq (q : List ℝ) :
    toLidarPoint q = [getv q 1, -(getv q 0), getv q 2] := rfl

/-- C9: `points_in_boxes` maps every point by the exact permutation
(new0, new1, new2) = (old1, -old0, old2) before delegating to the batched
containment primitive with a leading batch dimension of 1 and squeezing
that dimension from the result; a 3-dimensional input whose leading batch
dimension is not 1 is rejected.  The frame conversion and the primitive are
abstract collaborators. -/
theorem C9_points_in_boxes_permutation
    (conv : List (List ℝ) → List (List ℝ))
    (prim : List (List (List ℝ)) → List (List (List ℝ)) → List (List ℤ))
    (b : DepthInstance3DBoxes) (p : List (List ℝ))
    (ps : List (List (List ℝ))) :
    points_in_boxes conv prim b (PointsInput.mat p) =
      Except.ok ((prim [p.map (fun q => [getv q 1, -(getv q 0), getv q 2])]
        [conv b.tensor]).getD 0 []) ∧
    (ps.length = 1 →
      points_in_boxes conv prim b (PointsInput.batched ps) =
        Except.ok ((prim (ps.map (List.map
            (fun q => [getv q 1, -(getv q 0), getv q 2])))
          [conv b.tensor]).getD 0 [])) ∧
    (ps.length ≠ 1 →
      points_in_boxes conv prim b (PointsInput.batched ps) =
        Except.error PyErr.assertionError) := by
  refine ⟨rfl, fun h => ?_, fun h => ?_⟩
  · rw [points_in_boxes, if_pos h]
    rfl
  · rw [points_in_boxes, if_neg h]

/-! ## Claim about nearest_bev (envelope property) -/

/-- Follows the spec's words for claim C3: a corner of the rotated bev
rectangle `(cx, cy, w, h, yaw)` at signs `(i, j)` from {-1, 1}, rotated
with the same convention the corner expansion uses. -/
def bev_corner (rb : List ℝ) (i j : ℝ) : ℝ × ℝ :=
  (getv rb 0 + (i * getv rb 2 / 2) * Real.cos (getv rb 4)
             - (j * getv rb 3 / 2) * Real.sin (getv rb 4),
   getv rb 1 + (i * getv rb 2 / 2) * Real.sin (getv rb 4)
             + (j * getv rb 3 / 2) * Real.cos (getv rb 4))

/-- Follows the spec's words for claim C3: the axis-aligned bounding
rectangle `(xmin, ymin, xmax, ymax)` of the rotated bev rectangle's four
corners. -/
def bev_projection (rb : List ℝ) : List ℝ :=
  [min (min (bev_corner rb 1 1).1 (bev_corner rb 1 (-1)).1)
       (min (bev_corner rb (-1) 1).1 (bev_corner rb (-1) (-1)).1),
   min (min (bev_corner rb 1 1).2 (bev_corner rb 1 (-1)).2)
       (min (bev_corner rb (-1) 1).2 (bev_corner rb (-1) (-1)).2),
   max (max (bev_corner rb 1 1).1 (bev_corner rb 1 (-1)).1)
       (max (bev_corner rb (-1) 1).1 (bev_corner rb (-1) (-1)).1),
   max (max (bev_corner rb 1 1).2 (bev_corner rb 1 (-1)).2)
       (max (bev_corner rb (-1) 1).2 (bev_corner rb (-1) (-1)).2)]

/-- Containment of `(xmin, ymin, xmax, ymax)` rectangles. -/
def rect_contains (outer inner : List ℝ) : Prop :=
  getv outer 0 ≤ getv inner 0 ∧ getv outer 1 ≤ getv inner 1 ∧
  getv inner 2 ≤ getv outer 2 ∧ getv inner 3 ≤ getv outer 3

/-- The box of the C3 counterexample: yaw pi/4, square 2 x 2 base. -/
def boxYawQ : DepthInstance3DBoxes :=
  ⟨[[0, 0, 0, 2, 2, 2, Real.pi / 4]], 7, true⟩

theorem nearestBevRow_eq (rb : List ℝ) :
    nearestBevRow rb =
      if |limit_period (getv rb 4) 0.5 Real.pi| > Real.pi / 4 then
        [getv rb 0 - getv rb 3 / 2, getv rb 1 - getv rb 2 / 2,
         getv rb 0 + getv rb 3 / 2, getv rb 1 + getv rb 2 / 2]
      else
        [getv rb 0 - getv rb 2 / 2, getv rb 1 - getv rb 3 / 2,
         getv rb 0 + getv rb 2 / 2, getv rb 1 + getv rb 3 / 2] := by
  rw [nearestBevRow]
  by_cases h : |limit_period (getv rb 4) 0.5 Real.pi| > Real.pi / 4
  · rw [if_pos h, if_pos h]
    rfl
  · rw [if_neg h, if_neg h]
    rfl

theorem limit_period_sin_zero (t : ℝ) (h : Real.sin t = 0) :
    limit_period t 0.5 Real.pi = 0 := by
  obtain ⟨n, hn⟩ := Real.sin_eq_zero_iff.mp h
  rw [limit_period, ← hn,
    mul_div_cancel_right₀ (n : ℝ) Real.pi_ne_zero,
    show ((n : ℝ) + 0.5) = 1 / 2 + (n : ℤ) from by norm_num [add_comm],
    Int.floor_add_int,
    show ⌊(1 / 2 : ℝ)⌋ = 0 from by rw [Int.floor_eq_zero_iff]; norm_num]
  push_cast
  ring

theorem limit_period_cos_zero (t : ℝ) (h : Real.cos t = 0) :
    limit_period t 0.5 Real.pi = -(Real.pi / 2) := by
  obtain ⟨n, hn⟩ := Real.cos_eq_zero_iff.mp h
  have hdiv : (2 * (n : ℝ) + 1) * Real.pi / 2 / Real.pi = (n : ℝ) + 1 / 2 := by
    field_simp
    ring
  rw [limit_period, hn, hdiv,
    show (n : ℝ) + 1 / 2 + 0.5 = ((n + 1 : ℤ) : ℝ) from by push_cast; ring,
    Int.floor_intCast]
  push_cast
  ring

/-- C3 counterexample: at yaw pi/4 the rotated 2 x 2 bev square projects to
[-sqrt 2, sqrt 2] on each axis, while `nearest_bev` returns [-1, -1, 1, 1]:
the claimed envelope containment fails. -/
theorem C3_nearest_bev_not_envelope :
    ¬rect_contains ((nearest_bev boxYawQ).getD 0 [])
      (bev_projection ((bev boxYawQ).getD 0 [])) := by
  intro hcon
  have hb : (bev boxYawQ).getD 0 [] = [(0 : ℝ), 0, 2, 2, Real.pi / 4] := rfl
  have hlp : limit_period (Real.pi / 4) 0.5 Real.pi = Real.pi / 4 := by
    rw [limit_period,
      show Real.pi / 4 / Real.pi = (1 : ℝ) / 4 from by field_simp; ring,
      show (1 : ℝ) / 4 + 0.5 = 3 / 4 from by norm_num,
      show ⌊(3 / 4 : ℝ)⌋ = 0 from by rw [Int.floor_eq_zero_iff]; norm_num]
    push_cast
    ring
  have hnb : (nearest_bev boxYawQ).getD 0 [] = [-(1 : ℝ), -1, 1, 1] := by
    have h0 : (nearest_bev boxYawQ).getD 0 [] =
        nearestBevRow [(0 : ℝ), 0, 2, 2, Real.pi / 4] := rfl
    rw [h0, nearestBevRow_eq,
      show getv [(0 : ℝ), 0, 2, 2, Real.pi / 4] 4 = Real.pi / 4 from rfl,
      hlp, abs_of_nonneg (by positivity), if_neg (lt_irrefl _)]
    norm_num [getv]
  have hc11 : (bev_corner [(0 : ℝ), 0, 2, 2, Real.pi / 4] 1 1).2 =
      Real.sqrt 2 := by
    show (0 : ℝ) + (1 * 2 / 2) * Real.sin (Real.pi / 4)
        + (1 * 2 / 2) * Real.cos (Real.pi / 4) = Real.sqrt 2
    rw [Real.sin_pi_div_four, Real.cos_pi_div_four]
    ring
  have hle : Real.sqrt 2 ≤ getv (bev_projection ((bev boxYawQ).getD 0 [])) 3 := by
    rw [hb]
    calc Real.sqrt 2 = (bev_corner [(0 : ℝ), 0, 2, 2, Real.pi / 4] 1 1).2 :=
          hc11.symm
      _ ≤ max (max (bev_corner [(0 : ℝ), 0, 2, 2, Real.pi / 4] 1 1).2
            (bev_corner [(0 : ℝ), 0, 2, 2, Real.pi / 4] 1 (-1)).2)
          (max (bev_corner [(0 : ℝ), 0, 2, 2, Real.pi / 4] (-1) 1).2
            (bev_corner [(0 : ℝ), 0, 2, 2, Real.pi / 4] (-1) (-1)).2) :=
          le_trans (le_max_left _ _) (le_max_left _ _)
      _ = getv (bev_projection [(0 : ℝ), 0, 2, 2, Real.pi / 4]) 3 := rfl
  have h4 := hcon.2.2.2
  rw [hnb] at h4
  have hone : getv [-(1 : ℝ), -1, 1, 1] 3 = 1 := rfl
  rw [hone] at h4
  have hgt : (1 : ℝ) < Real.sqrt 2 :=
    (Real.lt_sqrt (by norm_num)).mpr (by norm_num)
  linarith

theorem bev_corner_fst (rb : List ℝ) (i j : ℝ) :
    (bev_corner rb i j).1 =
      getv rb 0 + (i * getv rb 2 / 2) * Real.cos (getv rb 4)
        - (j * getv rb 3 / 2) * Real.sin (getv rb 4) := rfl

theorem bev_corner_snd (rb : List ℝ) (i j : ℝ) :
    (bev_corner rb i j).2 =
      getv rb 1 + (i * getv rb 2 / 2) * Real.sin (getv rb 4)
        + (j * getv rb 3 / 2) * Real.cos (getv rb 4) := rfl

theorem envelope_axis_aligned (rb : List ℝ)
    (hyaw : Real.sin (getv rb 4) = 0 ∨ Real.cos (getv rb 4) = 0)
    (hw : 0 ≤ getv rb 2) (hh : 0 ≤ getv rb 3) :
    rect_contains (nearestBevRow rb) (bev_projection rb) := by
  rcases hyaw with hs | hc
  · have hcos : Real.cos (getv rb 4) = 1 ∨ Real.cos (getv rb 4) = -1 := by
      have h1 := Real.sin_sq_add_cos_sq (getv rb 4)
      rw [hs] at h1
      apply mul_self_eq_one_iff.mp
      nlinarith [h1]
    have hnb : nearestBevRow rb =
        [getv rb 0 - getv rb 2 / 2, getv rb 1 - getv rb 3 / 2,
         getv rb 0 + getv rb 2 / 2, getv rb 1 + getv rb 3 / 2] := by
      rw [nearestBevRow_eq, limit_period_sin_zero _ hs, abs_zero,
        if_neg (not_lt.mpr (by positivity))]
    rw [hnb]
    rcases hcos with hc1 | hc1 <;>
    exact ⟨by
        show getv rb 0 - getv rb 2 / 2 ≤
          min (min (bev_corner rb 1 1).1 (bev_corner rb 1 (-1)).1)
            (min (bev_corner rb (-1) 1).1 (bev_corner rb (-1) (-1)).1)
        refine le_min (le_min ?_ ?_) (le_min ?_ ?_) <;>
          rw [bev_corner_fst, hs, hc1] <;> linarith,
      by
        show getv rb 1 - getv rb 3 / 2 ≤
          min (min (bev_corner rb 1 1).2 (bev_corner rb 1 (-1)).2)
            (min (bev_corner rb (-1) 1).2 (bev_corner rb (-1) (-1)).2)
        refine le_min (le_min ?_ ?_) (le_min ?_ ?_) <;>
          rw [bev_corner_snd, hs, hc1] <;> linarith,
      by
        show max (max (bev_corner rb 1 1).1 (bev_corner rb 1 (-1)).1)
            (max (bev_corner rb (-1) 1).1 (bev_corner rb (-1) (-1)).1) ≤
          getv rb 0 + getv rb 2 / 2
        refine max_le (max_le ?_ ?_) (max_le ?_ ?_) <;>
          rw [bev_corner_fst, hs, hc1] <;> linarith,
      by
        show max (max (bev_corner rb 1 1).2 (bev_corner rb 1 (-1)).2)
            (max (bev_corner rb (-1) 1).2 (bev_corner rb (-1) (-1)).2) ≤
          getv rb 1 + getv rb 3 / 2
        refine max_le (max_le ?_ ?_) (max_le ?_ ?_) <;>
          rw [bev_corner_snd, hs, hc1] <;> linarith⟩
  · have hsin : Real.sin (getv rb 4) = 1 ∨ Real.sin (getv rb 4) = -1 := by
      have h1 := Real.sin_sq_add_cos_sq (getv rb 4)
      rw [hc] at h1
      apply mul_self_eq_one_iff.mp
      nlinarith [h1]
    have hnb : nearestBevRow rb =
        [getv rb 0 - getv rb 3 / 2, getv rb 1 - getv rb 2 / 2,
         getv rb 0 + getv rb 3 / 2, getv rb 1 + getv rb 2 / 2] := by
      rw [nearestBevRow_eq, limit_period_cos_zero _ hc, abs_neg,
        abs_of_nonneg (by positivity),
        if_pos (by linarith [Real.pi_pos])]
    rw [hnb]
    rcases hsin with hs1 | hs1 <;>
    exact ⟨by
        show getv rb 0 - getv rb 3 / 2 ≤
          min (min (bev_corner rb 1 1).1 (bev_corner rb 1 (-1)).1)
            (min (bev_corner rb (-1) 1).1 (bev_corner rb (-1) (-1)).1)
        refine le_min (le_min ?_ ?_) (le_min ?_ ?_) <;>
          rw [bev_corner_fst, hc, hs1] <;> linarith,
      by
        show getv rb 1 - getv rb 2 / 2 ≤
          min (min (bev_corner rb 1 1).2 (bev_corner rb 1 (-1)).2)
            (min (bev_corner rb (-1) 1).2 (bev_corner rb (-1) (-1)).2)
        refine le_min (le_min ?_ ?_) (le_min ?_ ?_) <;>
          rw [bev_corner_snd, hc, hs1] <;> linarith,
      by
        show max (max (bev_corner rb 1 1).1 (bev_corner rb 1 (-1)).1)
            (max (bev_corner rb (-1) 1).1 (bev_corner rb (-1) (-1)).1) ≤
          getv rb 0 + getv rb 3 / 2
        refine max_le (max_le ?_ ?_) (max_le ?_ ?_) <;>
          rw [bev_corner_fst, hc, hs1] <;> linarith,
      by
        show max (max (bev_corner rb 1 1).2 (bev_corner rb 1 (-1)).2)
            (max (bev_corner rb (-1) 1).2 (bev_corner rb (-1) (-1)).2) ≤
          getv rb 1 + getv rb 2 / 2
        refine max_le (max_le ?_ ?_) (max_le ?_ ?_) <;>
          rw [bev_corner_snd, hc, hs1] <;> linarith⟩

/-- C3 (amended): the containment of the rotated bev rectangle's
axis-aligned projection in `nearest_bev` holds whenever the box's yaw is an
integer multiple of pi/2 (sin yaw = 0 or cos yaw = 0) and the horizontal
sizes are nonnegative; the pi/4 counterexample shows it fails in general. -/
theorem C3_envelope_when_axis_aligned (b : DepthInstance3DBoxes) (i : ℕ)
    (hyaw : Real.sin (cell b i 6) = 0 ∨ Real.cos (cell b i 6) = 0)
    (hsx : 0 ≤ cell b i 3) (hsy : 0 ≤ cell b i 4) :
    rect_contains ((nearest_bev b).getD i [])
      (bev_projection ((bev b).getD i [])) := by
  by_cases hi : i < b.tensor.length
  · have hnb : (nearest_bev b).getD i [] =
        nearestBevRow ((bev b).getD i []) := by
      rw [nearest_bev, getD_map_lt _ _ i (by simpa [bev] using hi) []]
    rw [hnb]
    have hbev : (bev b).getD i [] =
        [cell b i 0, cell b i 1, cell b i 3, cell b i 4, cell b i 6] := by
      rw [bev, getD_map_lt _ _ i hi []]
      rfl
    apply envelope_axis_aligned
    · rw [hbev]
      exact hyaw
    · rw [hbev]
      exact hsx
    · rw [hbev]
      exact hsy
  · have h1 : (bev b).getD i [] = [] :=
      List.getD_eq_default _ _ (by simpa [bev] using le_of_not_lt hi)
    have h2 : (nearest_bev b).getD i [] = [] :=
      List.getD_eq_default _ _ (by simpa [nearest_bev, bev] using le_of_not_lt hi)
    have hcz : ∀ x y : ℝ, bev_corner [] x y = (0, 0) := by
      intro x y
      rw [bev_corner]
      norm_num
    rw [h1, h2]
    simp [rect_contains, bev_projection, hcz]

/-- C3 witness: the envelope containment at a concrete yaw-0 box. -/
theorem C3_witness :
    rect_contains ((nearest_bev boxA).getD 0 [])
      (bev_projection ((bev boxA).getD 0 [])) :=
  C3_envelope_when_axis_aligned boxA 0
    (Or.inl (by rw [show cell boxA 0 6 = 0 from rfl]; exact Real.sin_zero))
    (by rw [show cell boxA 0 3 = (4 : ℝ) from rfl]; norm_num)
    (by rw [show cell boxA 0 4 = (5 : ℝ) from rfl]; norm_num)

/-! ## Claims about corners, gravity center and in_range_bev -/

theorem cornersOfRow_z_list (r : List ℝ) :
    (cornersOfRow r).map (fun p => p.2.2) =
      [getv r 2, getv r 2 + getv r 5, getv r 2 + getv r 5, getv r 2,
       getv r 2, getv r 2 + getv r 5, getv r 2 + getv r 5, getv r 2] := by
  rw [cornersOfRow]
  simp only [corners_norm, List.map_cons, List.map_nil, rotation_3d_in_axis_z,
    pointMatT, vdot3_rot_mat_T_two, List.cons.injEq, and_true]
  norm_num
  ring

theorem cornersOfRow_cube :
    cornersOfRow [(0 : ℝ), 0, 0, 2, 2, 2, 0] =
      [(-1, -1, 0), (-1, -1, 2), (-1, 1, 2), (-1, 1, 0),
       (1, -1, 0), (1, -1, 2), (1, 1, 2), (1, 1, 0)] := by
  rw [cornersOfRow]
  simp only [corners_norm, List.map_cons, List.map_nil, rotation_3d_in_axis_z,
    pointMatT, vdot3, rot_mat_T,
    show getv [(0 : ℝ), 0, 0, 2, 2, 2, 0] 0 = 0 from rfl,
    show getv [(0 : ℝ), 0, 0, 2, 2, 2, 0] 1 = 0 from rfl,
    show getv [(0 : ℝ), 0, 0, 2, 2, 2, 0] 2 = 0 from rfl,
    show getv [(0 : ℝ), 0, 0, 2, 2, 2, 0] 3 = 2 from rfl,
    show getv [(0 : ℝ), 0, 0, 2, 2, 2, 0] 4 = 2 from rfl,
    show getv [(0 : ℝ), 0, 0, 2, 2, 2, 0] 5 = 2 from rfl,
    show getv [(0 : ℝ), 0, 0, 2, 2, 2, 0] 6 = 0 from rfl,
    Real.cos_zero, Real.sin_zero]
  norm_num [getv, Prod.ext_iff]

/-- C6: each row's 8 corners have z equal to the stored bottom z on exactly
the four corners 0, 3, 4, 7 and bottom z plus size-z on the other four, the
mean of the 8 z values is the gravity-center z, and the concrete unit-ish
cube scenario yields corners (±1, ±1, {0, 2}) with gravity center
(0, 0, 1). -/
theorem C6_corners_z_structure (b : DepthInstance3DBoxes)
    (cs : List (List (ℝ × ℝ × ℝ))) (hc : corners b = Except.ok cs) (i : ℕ)
    (hsz : cell b i 5 ≠ 0) :
    (∀ k, k < 8 →
      ((cs.getD i []).getD k (0, 0, 0)).2.2 = cell b i 2 ∨
      ((cs.getD i []).getD k (0, 0, 0)).2.2 = cell b i 2 + cell b i 5) ∧
    (∀ k, k < 8 →
      (((cs.getD i []).getD k (0, 0, 0)).2.2 = cell b i 2 ↔
        (k = 0 ∨ k = 3 ∨ k = 4 ∨ k = 7))) ∧
    ((cs.getD i []).map (fun p => p.2.2)).sum / 8 =
      ((gravity_center b).getD i (0, 0, 0)).2.2 ∧
    corners boxCube = Except.ok
      [[(-1, -1, 0), (-1, -1, 2), (-1, 1, 2), (-1, 1, 0),
        (1, -1, 0), (1, -1, 2), (1, 1, 2), (1, 1, 0)]] ∧
    gravity_center boxCube = [(0, 0, 1)] := by
  have hcs : ¬b.tensor.length = 0 ∧ cs = b.tensor.map cornersOfRow := by
    rw [corners] at hc
    by_cases h : b.tensor.length = 0
    · rw [if_pos h] at hc
      exact absurd hc (by simp)
    · rw [if_neg h] at hc
      injection hc with h'
      exact ⟨h, h'.symm⟩
  have hi : i < b.tensor.length := by
    by_contra hcon
    apply hsz
    show getv (b.tensor.getD i []) 5 = 0
    rw [List.getD_eq_default _ _ (le_of_not_lt hcon)]
    rfl
  have rowC : cs.getD i [] = cornersOfRow (b.tensor.getD i []) := by
    rw [hcs.2, getD_map_lt _ _ i hi []]
  have hs : getv (b.tensor.getD i []) 5 ≠ 0 := hsz
  have zk : ∀ k, ((cs.getD i []).getD k (0, 0, 0)).2.2 =
      ([getv (b.tensor.getD i []) 2,
        getv (b.tensor.getD i []) 2 + getv (b.tensor.getD i []) 5,
        getv (b.tensor.getD i []) 2 + getv (b.tensor.getD i []) 5,
        getv (b.tensor.getD i []) 2,
        getv (b.tensor.getD i []) 2,
        getv (b.tensor.getD i []) 2 + getv (b.tensor.getD i []) 5,
        getv (b.tensor.getD i []) 2 + getv (b.tensor.getD i []) 5,
        getv (b.tensor.getD i []) 2] : List ℝ).getD k 0 := by
    intro k
    rw [rowC, ← cornersOfRow_z_list (b.tensor.getD i []),
      getD_map_of_default (fun p : ℝ × ℝ × ℝ => p.2.2) _ k (0, 0, 0) 0 rfl]
  refine ⟨?_, ?_, ?_, ?_, ?_⟩
  · intro k hk
    rw [zk k]
    interval_cases k
    · exact Or.inl rfl
    · exact Or.inr rfl
    · exact Or.inr rfl
    · exact Or.inl rfl
    · exact Or.inl rfl
    · exact Or.inr rfl
    · exact Or.inr rfl
    · exact Or.inl rfl
  · intro k hk
    rw [zk k]
    have harr : ∀ v : ℝ, ¬(v + getv (b.tensor.getD i []) 5 = v) := by
      intro v h
      exact hs (by linarith)
    interval_cases k
    · exact iff_of_true rfl (by norm_num)
    · exact iff_of_false (harr _) (by norm_num)
    · exact iff_of_false (harr _) (by norm_num)
    · exact iff_of_true rfl (by norm_num)
    · exact iff_of_true rfl (by norm_num)
    · exact iff_of_false (harr _) (by norm_num)
    · exact iff_of_false (harr _) (by norm_num)
    · exact iff_of_true rfl (by norm_num)
  · rw [rowC, cornersOfRow_z_list, gravity_center, getD_map_lt _ _ i hi []]
    show _ / 8 = getv (b.tensor.getD i []) 2 + getv (b.tensor.getD i []) 5 * 0.5
    simp only [List.sum_cons, List.sum_nil]
    ring
  · rw [corners, if_neg (by decide),
      show boxCube.tensor = [[(0 : ℝ), 0, 0, 2, 2, 2, 0]] from rfl]
    simp only [List.map_cons, List.map_nil, cornersOfRow_cube]
  · rw [gravity_center, show boxCube.tensor = [[(0 : ℝ), 0, 0, 2, 2, 2, 0]] from rfl]
    simp only [List.map_cons, List.map_nil, bottomCenterRow]
    norm_num [getv, Prod.ext_iff]

/-- C6 witness: the corner z-structure at the concrete cube. -/
theorem C6_witness :
    ((∀ k, k < 8 →
      (((boxCube.tensor.map cornersOfRow).getD 0 []).getD k (0, 0, 0)).2.2 =
        cell boxCube 0 2 ∨
      (((boxCube.tensor.map cornersOfRow).getD 0 []).getD k (0, 0, 0)).2.2 =
        cell boxCube 0 2 + cell boxCube 0 5) ∧
    (∀ k, k < 8 →
      ((((boxCube.tensor.map cornersOfRow).getD 0 []).getD k (0, 0, 0)).2.2 =
          cell boxCube 0 2 ↔
        (k = 0 ∨ k = 3 ∨ k = 4 ∨ k = 7))) ∧
    (((boxCube.tensor.map cornersOfRow).getD 0 []).map (fun p => p.2.2)).sum / 8 =
      ((gravity_center boxCube).getD 0 (0, 0, 0)).2.2 ∧
    corners boxCube = Except.ok
      [[(-1, -1, 0), (-1, -1, 2), (-1, 1, 2), (-1, 1, 0),
        (1, -1, 0), (1, -1, 2), (1, 1, 2), (1, 1, 0)]] ∧
    gravity_center boxCube = [(0, 0, 1)]) :=
  C6_corners_z_structure boxCube (boxCube.tensor.map cornersOfRow) rfl 0
    (by norm_num [show cell boxCube 0 5 = (2 : ℝ) from rfl])

/-- C7: `in_range_bev` is exactly the strict center-containment test on
columns 0 and 1, and the two scenario boxes behave as stated against the
range (-1, -1, 1, 1). -/
theorem C7_in_range_bev_center_test (b : DepthInstance3DBoxes)
    (br : ℝ × ℝ × ℝ × ℝ) (i : ℕ) (hi : i < b.tensor.length) :
    ((in_range_bev b br).getD i False ↔
      (br.1 < cell b i 0 ∧ cell b i 0 < br.2.2.1 ∧
       br.2.1 < cell b i 1 ∧ cell b i 1 < br.2.2.2)) ∧
    (in_range_bev boxIn (-1, -1, 1, 1)).getD 0 False ∧
    ¬(in_range_bev boxOut (-1, -1, 1, 1)).getD 0 False := by
  refine ⟨?_, ?_, ?_⟩
  · rw [in_range_bev, getD_map_lt _ _ i hi []]
    show (getv (b.tensor.getD i []) 0 > br.1 ∧ _ ∧ _ ∧ _) ↔ _
    unfold cell
    tauto
  · rw [in_range_bev, getD_map_lt _ _ 0 (by decide) []]
    refine ⟨?_, ?_, ?_, ?_⟩ <;>
      rw [show boxIn.tensor.getD 0 [] = [(0.5 : ℝ), 0.5, 0, 1, 1, 1, 0] from rfl] <;>
      norm_num [getv]
  · rw [in_range_bev, getD_map_lt _ _ 0 (by decide) []]
    rintro ⟨-, -, h3, -⟩
    rw [show boxOut.tensor.getD 0 [] = [(2 : ℝ), 0, 0, 1, 1, 1, 0] from rfl] at h3
    norm_num [getv] at h3

/-- C7 witness: the center test at the concrete in-range box and row 0. -/
theorem C7_witness :
    (((in_range_bev boxIn (-1, -1, 1, 1)).getD 0 False ↔
      ((-1 : ℝ) < cell boxIn 0 0 ∧ cell boxIn 0 0 < 1 ∧
       (-1 : ℝ) < cell boxIn 0 1 ∧ cell boxIn 0 1 < 1)) ∧
    (in_range_bev boxIn (-1, -1, 1, 1)).getD 0 False ∧
    ¬(in_range_bev boxOut (-1, -1, 1, 1)).getD 0 False) :=
  C7_in_range_bev_center_test boxIn (-1, -1, 1, 1) 0 (by decide)

/-- C4 witness: rotating a concrete box by 1 radian and back restores its
center and yaw cells. -/
theorem C4_witness :
    cell (rotate (rotate boxA 1 none).fst (-1) none).fst 0 0 =
      cell boxA 0 0 ∧
    cell (rotate (rotate boxA 1 none).fst (-1) none).fst 0 1 =
      cell boxA 0 1 ∧
    cell (rotate (rotate boxA 1 none).fst (-1) none).fst 0 2 =
      cell boxA 0 2 ∧
    cell (rotate (rotate boxA 1 none).fst (-1) none).fst 0 6 =
      cell boxA 0 6 :=
  C4_rotate_then_rotate_neg boxA 1 0 rfl (by decide)

end

end MMDet3D
